import Mathlib

/-!
Shallow embedding of the MonsterMaskOpenClaw hot-reload subsystem
(`src/M4_Eyes/reload.cpp` and `src/M4_Eyes/user.cpp`).

C strings are modelled as `List Char` (ASCII), unsigned machine integers
as `Nat` with explicit masks/moduli where overflow or conversion matters,
and floats that only flow through assignments as `Rat` (the code never
computes with them in the fragments under verification, it only copies
them, so value identity models bit identity).  Hardware-only effects
(DMA register pokes, SPI transactions, display rotation, `millis`
timing) have no observable state in any claim and are elided; their
net effect on modelled state (e.g. `dma_busy` cleared by the drain
loop, with or without the timeout escape) is kept.
-/

/-! ## user.cpp — style table, persistent cycle state, command interface -/

/-- ASCII lower-casing of one character, as C `tolower` behaves on ASCII. -/
def lowerChar (c : Char) : Char :=
  if 'A' ≤ c ∧ c ≤ 'Z' then Char.ofNat (c.toNat + 32) else c

/-- Lower-case an ASCII string (list of chars). -/
def lowerL (s : List Char) : List Char := s.map lowerChar

/-- C `strcasecmp(a, b) == 0`. -/
def caseEqL (a b : List Char) : Bool := lowerL a == lowerL b

/-- C `strncasecmp(a, b, n) == 0`. -/
def strncaseEq (a b : List Char) (n : Nat) : Bool :=
  lowerL (a.take n) == lowerL (b.take n)

/-- One entry of the compiled-in style table (`struct StyleEntry`). -/
structure StyleEntry where
  name : List Char
  configPath : List Char
deriving DecidableEq

/-- The `styleTable[]` array from user.cpp, in declaration order. -/
def styleTable : List StyleEntry := [
  ⟨"hazel".data,       "hazel/config.eye".data⟩,
  ⟨"anime".data,       "anime/config.eye".data⟩,
  ⟨"big_blue".data,    "big_blue/config.eye".data⟩,
  ⟨"demon".data,       "demon/config.eye".data⟩,
  ⟨"doom_red".data,    "doom-red/config.eye".data⟩,
  ⟨"doom_spiral".data, "doom-spiral/config.eye".data⟩,
  ⟨"fish".data,        "fish_eyes/config.eye".data⟩,
  ⟨"fizzgig".data,     "fizzgig/config.eye".data⟩,
  ⟨"hypno_red".data,   "hypno_red/config.eye".data⟩,
  ⟨"reflection".data,  "reflection/config.eye".data⟩,
  ⟨"skull".data,       "skull/config.eye".data⟩,
  ⟨"snake".data,       "snake_green/config.eye".data⟩,
  ⟨"spikes".data,      "spikes/config.eye".data⟩,
  ⟨"toonstripe".data,  "toonstripe/config.eye".data⟩]

/-- `NUM_STYLES = sizeof(styleTable)/sizeof(styleTable[0])`. -/
def NUM_STYLES : Nat := styleTable.length

/-- Fallback table entry used to model a C out-of-bounds read drawing an
arbitrary value; every verified access is shown in bounds. -/
def dStyle : StyleEntry := ⟨[], []⟩

/-- `CYCLE_MAGIC_MASK` tag for the RTC backup registers. -/
def CYCLE_MAGIC_MASK : Nat := 0xC7C10000

/-- The mutable state of user.cpp that the claims observe: the two
static `uint8_t` cycle variables plus the two RTC backup registers
(`RTC->MODE0.BKUP[0/1].reg`, 32-bit). -/
structure UserState where
  cycleIndex : Nat
  cycleEnabled : Nat
  bkup0 : Nat
  bkup1 : Nat
deriving DecidableEq

/-- `loadCycleState()`: reads the two backup registers and produces the
`(cycleIndex, cycleEnabled)` pair, validating each register's magic tag
independently. -/
def loadCycleState (v0 v1 : Nat) : Nat × Nat :=
  let idx :=
    if v0 &&& 0xFFFF0000 = CYCLE_MAGIC_MASK then
      let i := v0 &&& 0xFF
      if i ≥ NUM_STYLES then 0 else i
    else 0
  let en :=
    if v1 &&& 0xFFFF0000 = CYCLE_MAGIC_MASK then v1 &&& 0xFF else 1
  (idx, en)

/-- `saveCycleState()`: writes both registers with the magic tag. -/
def saveCycleState (st : UserState) : UserState :=
  { st with
    bkup0 := CYCLE_MAGIC_MASK ||| st.cycleIndex
    bkup1 := CYCLE_MAGIC_MASK ||| st.cycleEnabled }

/-- `getCycleConfigPath()`: load the persisted state, then index the
style table. -/
def getCycleConfigPath (v0 v1 : Nat) : List Char :=
  (styleTable.getD (loadCycleState v0 v1).1 dStyle).configPath

/-- `rebootToStyle(idx)`: stores `idx % NUM_STYLES` (after the implicit
uint8 conversion of the argument), persists it, prints the banner and
resets.  The `Bool` in the result records that the device reset (so no
code after the call runs). -/
def rebootToStyle (idx : Nat) (st : UserState) :
    UserState × List (List Char) × Bool :=
  let i := idx % 256 % NUM_STYLES
  let st := saveCycleState { st with cycleIndex := i }
  (st, ["STYLE:REBOOTING:".data ++ (styleTable.getD i dStyle).name], true)

/-- The C search loop over `styleTable` in `processCommand`, with its
running index. -/
def findStyleIdx (name : List Char) : Nat → List StyleEntry → Option Nat
  | _, [] => none
  | i, e :: rest =>
    if caseEqL name e.name then some i else findStyleIdx name (i + 1) rest

/-- One line of the `MOOD:list` listing:
`printf("  %s -> %s%s\n", name, configPath, marker)`. -/
def styleListLine (cur i : Nat) : List Char :=
  "  ".data ++ (styleTable.getD i dStyle).name ++ " -> ".data ++
    (styleTable.getD i dStyle).configPath ++
    (if i == cur then " [current]".data else [])

/-- The full serial output of the `MOOD:list` branch. -/
def moodListOutput (st : UserState) : List (List Char) :=
  "STYLE:LIST".data ::
    ((List.range NUM_STYLES).map (styleListLine st.cycleIndex) ++
     ["STYLE:CURRENT:".data ++ (styleTable.getD st.cycleIndex dStyle).name,
      "AUTOCYCLE:".data ++
        (if st.cycleEnabled == 0 then "off".data else "on".data)])

/-- The `STATUS` report line. -/
def statusLine (frames freeRAM : Nat) (st : UserState) : List Char :=
  "STATUS:style=".data ++ (styleTable.getD st.cycleIndex dStyle).name ++
  ",index=".data ++ (toString st.cycleIndex).data ++ "/".data ++
  (toString NUM_STYLES).data ++
  ",autocycle=".data ++
  (if st.cycleEnabled == 0 then "off".data else "on".data) ++
  ",frames=".data ++ (toString frames).data ++
  ",freeRAM=".data ++ (toString freeRAM).data

/-- `processCommand(cmd)`: returns the new state, the serial lines
emitted, and whether the device reset.  Faithful to the source,
including the `strncasecmp(cmd, "AUTOCYCLE:", 9)` length (9, not 10)
and the `UNKNOWN:STYLE:` / `STYLE:LIST` / `STYLE:CURRENT:` labels. -/
def processCommand (frames freeRAM : Nat) (cmd : List Char)
    (st : UserState) : UserState × List (List Char) × Bool :=
  let cmd := cmd.dropWhile (fun c => c == ' ' || c == '\t')
  if strncaseEq cmd "MOOD:".data 5 then
    let name := cmd.drop 5
    if caseEqL name "list".data then
      (st, moodListOutput st, false)
    else if caseEqL name "next".data then
      rebootToStyle (st.cycleIndex + 1) st
    else
      match findStyleIdx name 0 styleTable with
      | some i => rebootToStyle i st
      | none => (st, ["UNKNOWN:STYLE:".data ++ name], false)
  else if strncaseEq cmd "AUTOCYCLE:".data 9 then
    let val := cmd.drop 9
    if caseEqL val "on".data then
      (saveCycleState { st with cycleEnabled := 1 }, ["AUTOCYCLE:on".data],
        false)
    else if caseEqL val "off".data then
      (saveCycleState { st with cycleEnabled := 0 }, ["AUTOCYCLE:off".data],
        false)
    else
      (st, [], false)
  else if strncaseEq cmd "STATUS".data 6 then
    (st, [statusLine frames freeRAM st], false)
  else if cmd.isEmpty then
    (st, [], false)
  else
    (st, ["UNKNOWN:CMD:".data ++ cmd], false)

/-- The serial-read loop of `user_loop`: consume a list of incoming
bytes, maintaining the 64-byte line buffer (63 usable characters:
`serialIdx < sizeof(serialBuf) - 1`).  Returns final state, final
buffer contents, all output lines, and whether a command reset the
device (after which remaining input is not processed). -/
def feedSerial (frames freeRAM : Nat) :
    UserState → List Char → List Char →
    UserState × List Char × List (List Char) × Bool
  | st, buf, [] => (st, buf, [], false)
  | st, buf, c :: rest =>
    if c == '\n' || c == '\r' then
      if buf.isEmpty then
        feedSerial frames freeRAM st buf rest
      else
        let r := processCommand frames freeRAM buf st
        if r.2.2 then (r.1, [], r.2.1, true)
        else
          let k := feedSerial frames freeRAM r.1 [] rest
          (k.1, k.2.1, r.2.1 ++ k.2.2.1, k.2.2.2)
    else if buf.length < 63 then
      feedSerial frames freeRAM st (buf ++ [c]) rest
    else
      feedSerial frames freeRAM st buf rest

/-! ## reload.cpp — texture cache and hot-reload orchestrator -/

/-- Texture slot of a rendering unit; used to tag which call site of
`loadTexture` (the external decoder) ran. -/
inductive Slot where
  | iris
  | sclera
deriving DecidableEq

/-- Model of a `uint16_t *` pixel-data pointer.  `alloc n` is the `n`-th
fresh allocation returned by the external decoder; `colorField s e` is
the address `&eye[e].iris.color` / `&eye[e].sclera.color` used as the
1×1 fallback image.  Equality is pointer identity. -/
inductive Ptr where
  | null
  | alloc (n : Nat)
  | colorField (s : Slot) (e : Nat)
deriving DecidableEq

/-- `ImageReturnCode` as observed by this file. -/
inductive ImageRC where
  | success
  | errFileNotFound
  | errDecodeFail
deriving DecidableEq

/-- `struct TextureCacheEntry` (the 48-byte name buffer holds at most 47
characters plus the terminator). -/
structure CacheEntry where
  filename : List Char
  data : Ptr
  width : Nat
  height : Nat
deriving DecidableEq

/-- `MAX_CACHED_TEXTURES`. -/
def MAX_CACHED_TEXTURES : Nat := 8

/-- The mutable texture-cache state of reload.cpp plus the verification
instrumentation: `nextAlloc` numbers decoder allocations, and `log`
records each invocation of the external decoder `loadTexture`, tagged
with the slot it was called for. -/
structure TexState where
  cache : List CacheEntry
  nextAlloc : Nat
  log : List (Slot × List Char)
deriving DecidableEq

/-- `findCachedTexture`: first cache entry whose stored name `strcmp`s
equal to the requested one. -/
def findCachedTexture (cache : List CacheEntry) (f : List Char) :
    Option CacheEntry :=
  cache.find? (fun e => e.filename == f)

/-- `addCachedTexture`: rejected when full, otherwise appends an entry
whose name is `strncpy`-truncated to 47 characters. -/
def addCachedTexture (ts : TexState) (f : List Char) (d : Ptr)
    (w h : Nat) : TexState :=
  if ts.cache.length ≥ MAX_CACHED_TEXTURES then ts
  else { ts with cache := ts.cache ++ [⟨f.take 47, d, w, h⟩] }

/-- Result quadruple of `loadTextureWithCache` (`*data`, `*width`,
`*height`, returned status). -/
structure TexResult where
  data : Ptr
  width : Nat
  height : Nat
  status : ImageRC
deriving DecidableEq

/-- `loadTextureWithCache`: NULL filename and decode failure degrade to
the caller-supplied fallback color pointer as a 1×1 image; a cache hit
returns the cached entry; a cache miss invokes the external decoder
(modelled by `oracle`, logged in `log`) and caches on success.  The
decoder's dimensions come from `oracle`; its pixel allocation is the
next fresh pointer. -/
def loadTextureWithCache (oracle : List Char → Option (Nat × Nat))
    (slot : Slot) (fname : Option (List Char)) (fallback : Ptr)
    (ts : TexState) : TexResult × TexState :=
  match fname with
  | none => (⟨fallback, 1, 1, .errFileNotFound⟩, ts)
  | some f =>
    match findCachedTexture ts.cache f with
    | some e => (⟨e.data, e.width, e.height, .success⟩, ts)
    | none =>
      let ts1 : TexState := { ts with log := ts.log ++ [(slot, f)] }
      match oracle f with
      | some wh =>
        let p := Ptr.alloc ts1.nextAlloc
        let ts2 : TexState := { ts1 with nextAlloc := ts1.nextAlloc + 1 }
        (⟨p, wh.1, wh.2, .success⟩, addCachedTexture ts2 f p wh.1 wh.2)
      | none => (⟨fallback, 1, 1, .errDecodeFail⟩, ts1)

/-- One texture side of an eye (`eye[e].iris` / `eye[e].sclera`). -/
structure EyeTexSide where
  color : Nat
  data : Ptr
  filename : Option (List Char)
  width : Nat
  height : Nat
  startAngle : Nat
  angle : Nat
  mirror : Nat
  spin : Rat
  iSpin : Int
deriving DecidableEq

/-- The mutable per-eye state touched by `reloadEyeConfig`.  Hardware
bindings (`spi`, `cs`, `display`, `dma`, pins, `column[]`) are fixed at
construction, never written by the reload path, and carry no modelled
state. -/
structure EyeState where
  pupilColor : Nat
  backColor : Nat
  iris : EyeTexSide
  sclera : EyeTexSide
  rotation : Nat
  blinkState : Nat
  blinkFactor : Rat
  colNum : Nat
  colIdx : Nat
  dma_busy : Bool
  column_ready : Bool
  eyeX : Int
  eyeY : Int
deriving DecidableEq

/-- `NOBLINK` enumerator. -/
def NOBLINK : Nat := 0

/-- `DISPLAY_SIZE` (240×240 round displays on the Monster M4SK). -/
def DISPLAY_SIZE : Nat := 240

/-- Default eye used to total out-of-bounds list reads in statements;
all verified accesses are shown in bounds. -/
def dEye : EyeState :=
  ⟨0, 0, ⟨0, .null, none, 0, 0, 0, 0, 0, 0, 0⟩,
        ⟨0, .null, none, 0, 0, 0, 0, 0, 0, 0⟩,
   0, 0, 0, 0, 0, false, false, 0, 0⟩

/-- The globals of M4_Eyes that `reloadEyeConfig` reads or writes. -/
structure Globals where
  eyes : List EyeState
  upperEyelidFilename : Option (List Char)
  lowerEyelidFilename : Option (List Char)
  eyeRadius : Int
  eyeDiameter : Int
  irisRadius : Int
  slitPupilRadius : Int
  mapRadius : Int
  mapDiameter : Int
  coverage : Rat
  tracking : Bool
  trackFactor : Rat
  gazeMax : Nat
  irisMin : Rat
  irisRange : Rat
deriving DecidableEq

/-- Step 1–2 of `reloadEyeConfig`: wait (bounded) for each eye's DMA and
end the SPI transactions.  Whether the 100 ms timeout forces it or the
transfer drains naturally, each `dma_busy` flag is false afterwards;
the SPI/chip-select operations touch only hardware. -/
def stepDrain (g : Globals) : Globals :=
  { g with eyes := g.eyes.map (fun e => { e with dma_busy := false }) }

/-- Step 3: free the previous owned filename strings and null the
fields. -/
def stepFreeFilenames (g : Globals) : Globals :=
  { g with
    upperEyelidFilename := none
    lowerEyelidFilename := none
    eyes := g.eyes.map (fun e =>
      { e with
        iris := { e.iris with filename := none }
        sclera := { e.sclera with filename := none } }) }

/-- Step 4 per-eye reset (mirrors the reload.cpp block, which mirrors
`setup()`): note that `width`/`height` are deliberately not reset. -/
def resetEyeDefaults (idx : Nat) (e : EyeState) : EyeState :=
  { e with
    pupilColor := 0x0000
    backColor := 0xFFFF
    iris := { e.iris with
      color := 0xFF01
      data := .null
      filename := none
      startAngle := if idx % 2 = 1 then 512 else 0
      angle := if idx % 2 = 1 then 512 else 0
      mirror := 0
      spin := 0
      iSpin := 0 }
    sclera := { e.sclera with
      color := 0xFFFF
      data := .null
      filename := none
      startAngle := if idx % 2 = 1 then 512 else 0
      angle := if idx % 2 = 1 then 512 else 0
      mirror := 0
      spin := 0
      iSpin := 0 }
    rotation := 3
    blinkState := NOBLINK
    blinkFactor := 0 }

/-- Step 4: reset every eye and the five loadConfig-owned globals to
fixed defaults. -/
def stepResetDefaults (g : Globals) : Globals :=
  { g with
    eyes := g.eyes.mapIdx resetEyeDefaults
    tracking := true
    trackFactor := (0.5 : Rat)
    gazeMax := 3000000
    irisMin := (0.45 : Rat)
    irisRange := (0.35 : Rat) }

/-- The seven protected-geometry values snapshotted around
`loadConfig`. -/
structure Geometry where
  eyeRadius : Int
  eyeDiameter : Int
  irisRadius : Int
  slitPupilRadius : Int
  mapRadius : Int
  mapDiameter : Int
  coverage : Rat
deriving DecidableEq

/-- Snapshot the protected geometry (the seven `saved*` locals). -/
def savedGeometry (g : Globals) : Geometry :=
  ⟨g.eyeRadius, g.eyeDiameter, g.irisRadius, g.slitPupilRadius,
   g.mapRadius, g.mapDiameter, g.coverage⟩

/-- Restore the protected geometry after `loadConfig`. -/
def restoreGeometry (g : Globals) (s : Geometry) : Globals :=
  { g with
    eyeRadius := s.eyeRadius
    eyeDiameter := s.eyeDiameter
    irisRadius := s.irisRadius
    slitPupilRadius := s.slitPupilRadius
    mapRadius := s.mapRadius
    mapDiameter := s.mapDiameter
    coverage := s.coverage }

/-- State right before `loadConfig` runs (steps 1–4 applied). -/
def preConfigState (g : Globals) : Globals :=
  stepResetDefaults (stepFreeFilenames (stepDrain g))

/-- State right after step 5: `loadConfig` (an arbitrary external
mutation `lc`, closing over the supplied config path) followed by the
geometry restore. -/
def postConfigState (lc : Globals → Globals) (g : Globals) : Globals :=
  restoreGeometry (lc (preConfigState g)) (savedGeometry (preConfigState g))

/-- Select a texture side of an eye by slot. -/
def slotGet : Slot → EyeState → EyeTexSide
  | .iris, e => e.iris
  | .sclera, e => e.sclera

/-- Write back a texture side of an eye by slot. -/
def slotSetTex : Slot → EyeState → EyeTexSide → EyeState
  | .iris, e, t => { e with iris := t }
  | .sclera, e, t => { e with sclera := t }

/-- The sharing test of step 6: both filenames non-NULL and
`strcmp`-equal. -/
def dedupPred (s : Slot) (side : EyeTexSide) (p : EyeState) : Bool :=
  match side.filename, (slotGet s p).filename with
  | some a, some b => a == b
  | _, _ => false

/-- Resolve one texture slot of eye number `idx`: copy the reference
from the first earlier eye sharing the same non-NULL filename in the
same slot, else go through the cache/decoder with the eye's own color
field as fallback. -/
def resolveSlot (oracle : List Char → Option (Nat × Nat)) (s : Slot)
    (idx : Nat) (processed : List EyeState) (e : EyeState)
    (ts : TexState) : EyeState × TexState :=
  let side := slotGet s e
  match processed.find? (dedupPred s side) with
  | some p =>
    let ps := slotGet s p
    (slotSetTex s e
      { side with data := ps.data, width := ps.width, height := ps.height },
     ts)
  | none =>
    let r := loadTextureWithCache oracle s side.filename
      (Ptr.colorField s idx) ts
    (slotSetTex s e
      { side with data := r.1.data, width := r.1.width,
                  height := r.1.height },
     r.2)

/-- Resolve both slots of one eye (iris first, as in the source). -/
def resolveEye (oracle : List Char → Option (Nat × Nat)) (idx : Nat)
    (processed : List EyeState) (e : EyeState) (ts : TexState) :
    EyeState × TexState :=
  let r1 := resolveSlot oracle .iris idx processed e ts
  resolveSlot oracle .sclera idx processed r1.1 r1.2

/-- Step 6: the `for (e = 0; e < NUM_EYES; e++)` texture-resolution
loop; `processed` holds the already-updated earlier eyes that the
sharing test reads. -/
def resolveTextures (oracle : List Char → Option (Nat × Nat)) :
    List EyeState → Nat → List EyeState → TexState →
    List EyeState × TexState
  | [], _, processed, ts => (processed, ts)
  | e :: rest, idx, processed, ts =>
    let r := resolveEye oracle idx processed e ts
    resolveTextures oracle rest (idx + 1) (processed ++ [r.1]) r.2

/-- Step 8: free the temporary filename strings of this reload cycle
and null the fields. -/
def stepFreeTempNames (g : Globals) : Globals :=
  { g with
    eyes := g.eyes.map (fun e =>
      { e with
        sclera := { e.sclera with filename := none }
        iris := { e.iris with filename := none } })
    lowerEyelidFilename := none
    upperEyelidFilename := none }

/-- Step 9: reset the rendering cursors and recenter the gaze; the
`setRotation` call is hardware-only. -/
def stepResume (g : Globals) : Globals :=
  { g with
    eyes := g.eyes.map (fun e =>
      { e with
        colNum := DISPLAY_SIZE
        colIdx := 0
        dma_busy := false
        column_ready := false
        eyeX := g.mapRadius
        eyeY := g.mapRadius }) }

/-- `reloadEyeConfig(configPath)`.  `lc` is the external `loadConfig`
call (closing over the path), `oracle` the external decoder's
success/dimension behaviour.  Step 7 (`loadEyelid`) only reads the
eyelid filenames and writes the unmodelled eyelid tables, so it
contributes no modelled state change. -/
def reloadEyeConfig (lc : Globals → Globals)
    (oracle : List Char → Option (Nat × Nat)) (g : Globals)
    (ts : TexState) : Globals × TexState :=
  let g1 := postConfigState lc g
  let r := resolveTextures oracle g1.eyes 0 [] ts
  let g2 : Globals := { g1 with eyes := r.1 }
  let g3 := stepFreeTempNames g2
  (stepResume g3, r.2)

/-- States of the texture cache reachable through
`loadTextureWithCache` calls from the empty boot state, with every
requested identifier within the 47-character bound of the cache's name
buffer (the bound the design docs place on callers). -/
inductive CacheReachable : TexState → Prop where
  | init : CacheReachable ⟨[], 0, []⟩
  | step (oracle : List Char → Option (Nat × Nat)) (slot : Slot)
      (fname : Option (List Char)) (fallback : Ptr) {ts : TexState}
      (h : CacheReachable ts)
      (hlen : ∀ f, fname = some f → f.length ≤ 47) :
      CacheReachable (loadTextureWithCache oracle slot fname fallback ts).2

/-- The two filename fields of an eye, used to state that texture
resolution never rewrites them. -/
def eyeFilenames (e : EyeState) : Option (List Char) × Option (List Char) :=
  (e.iris.filename, e.sclera.filename)

/-- Cross-unit sharing invariant: any two eyes of the list holding the
same non-NULL filename in the same slot reference the same pixel-data
pointer. -/
def SameSlotSameData (l : List EyeState) : Prop :=
  ∀ (s : Slot) (f : List Char) (p q : EyeState), p ∈ l → q ∈ l →
    (slotGet s p).filename = some f → (slotGet s q).filename = some f →
    (slotGet s p).data = (slotGet s q).data

/-- Concrete empty globals used by the counterexample/witness inputs. -/
def gEmpty : Globals :=
  ⟨[], none, none, 0, 0, 0, 0, 0, 0, 0, false, 0, 0, 0, 0⟩

/-- Concrete eye whose iris and sclera both request texture `x`. -/
def eyeBothX : EyeState :=
  { dEye with
    iris := { dEye.iris with filename := some "x".data }
    sclera := { dEye.sclera with filename := some "x".data } }

/-- Concrete `loadConfig` behaviour: install two eyes that share the
same iris texture identifier and the same sclera texture identifier. -/
def lcBothX : Globals → Globals :=
  fun g => { g with eyes := [eyeBothX, eyeBothX] }

/-- Concrete decoder behaviour: identifier `x` decodes as a 4×4
image, everything else fails. -/
def oracleX : List Char → Option (Nat × Nat) :=
  fun f => if f == "x".data then some (4, 4) else none

/-- A texture cache already holding 8 entries (`c0` … `c7`), i.e. at
`MAX_CACHED_TEXTURES` capacity. -/
def tsFull : TexState :=
  ⟨(List.range 8).map (fun i => ⟨'c' :: (toString i).data, .null, 1, 1⟩),
   0, []⟩

/-! ## Theorems -/

/-- C1: for every call to `reloadEyeConfig`, whatever the supplied
config path and whatever `loadConfig` writes (both abstracted by the
arbitrary mutation `lc`), the seven protected-geometry values —
eyeRadius, eyeDiameter, irisRadius, slitPupilRadius, mapRadius,
mapDiameter, coverage — are identical before and after the reload. -/
theorem c1_reload_preserves_protected_geometry
    (lc : Globals → Globals) (oracle : List Char → Option (Nat × Nat))
    (g : Globals) (ts : TexState) :
    (reloadEyeConfig lc oracle g ts).1.eyeRadius = g.eyeRadius ∧
    (reloadEyeConfig lc oracle g ts).1.eyeDiameter = g.eyeDiameter ∧
    (reloadEyeConfig lc oracle g ts).1.irisRadius = g.irisRadius ∧
    (reloadEyeConfig lc oracle g ts).1.slitPupilRadius = g.slitPupilRadius ∧
    (reloadEyeConfig lc oracle g ts).1.mapRadius = g.mapRadius ∧
    (reloadEyeConfig lc oracle g ts).1.mapDiameter = g.mapDiameter ∧
    (reloadEyeConfig lc oracle g ts).1.coverage = g.coverage :=
  ⟨rfl, rfl, rfl, rfl, rfl, rfl, rfl⟩

/-- C3: after every completed `reloadEyeConfig`, no rendering unit
holds a dynamically-owned identifier string: both eyelid filename
globals and every eye's iris/sclera filename are null. -/
theorem c3_no_owned_filenames_after_reload
    (lc : Globals → Globals) (oracle : List Char → Option (Nat × Nat))
    (g : Globals) (ts : TexState) :
    (reloadEyeConfig lc oracle g ts).1.upperEyelidFilename = none ∧
    (reloadEyeConfig lc oracle g ts).1.lowerEyelidFilename = none ∧
    ∀ e ∈ (reloadEyeConfig lc oracle g ts).1.eyes,
      e.iris.filename = none ∧ e.sclera.filename = none := by
  refine ⟨rfl, rfl, ?_⟩
  intro e he
  simp only [reloadEyeConfig, stepResume, stepFreeTempNames,
    List.mem_map] at he
  obtain ⟨b, ⟨a, _, rfl⟩, rfl⟩ := he
  exact ⟨rfl, rfl⟩

/-- C5 counterexample: backup-register contents in which the magic tag
of a record (record 0, the index record) is corrupted, yet the load
does not return "index 0 and cycling enabled": the valid enable record
with payload 0 is honoured, so cycling comes back disabled.  Each
register is validated independently. -/
theorem c5_counterexample_single_record_corrupt :
    (0 : Nat) &&& 0xFFFF0000 ≠ CYCLE_MAGIC_MASK ∧
    loadCycleState 0 0xC7C10000 = (0, 0) ∧
    loadCycleState 0 0xC7C10000 ≠ (0, 1) := by
  refine ⟨by decide, by decide, by decide⟩

/-- C5 amended: a pair of backup-register contents in which the magic
tags of both records are corrupted or missing loads exactly like "no
prior state": style index 0 and cycling enabled (each register is
validated independently, so a single corrupted record only defaults
its own field). -/
theorem c5_both_records_invalid_defaults (v0 v1 : Nat)
    (h0 : v0 &&& 0xFFFF0000 ≠ CYCLE_MAGIC_MASK)
    (h1 : v1 &&& 0xFFFF0000 ≠ CYCLE_MAGIC_MASK) :
    loadCycleState v0 v1 = (0, 1) := by
  simp [loadCycleState, h0, h1]

/-- C5 witness: both registers zeroed (full power loss) load as
(index 0, cycling enabled). -/
theorem c5_witness : loadCycleState 0 0 = (0, 1) :=
  c5_both_records_invalid_defaults 0 0 (by decide) (by decide)

/-- C6: evaluating the code at the claim's inputs.  Because the
`strncasecmp` prefix length is 9 while `"AUTOCYCLE:"` has 10
characters, the value pointer lands on `":on"` / `":off"`, which match
neither `"on"` nor `"off"`: the commands `AUTOCYCLE:on` and
`AUTOCYCLE:off` leave the state (flag and persisted record) unchanged
and emit nothing, contradicting the file's own header comment. -/
theorem c6_autocycle_command_is_ignored (frames freeRAM : Nat)
    (st : UserState) :
    processCommand frames freeRAM "AUTOCYCLE:on".data st =
      (st, [], false) ∧
    processCommand frames freeRAM "AUTOCYCLE:off".data st =
      (st, [], false) :=
  ⟨rfl, rfl⟩

/-- Helper: `NUM_STYLES` is positive, so `% NUM_STYLES` is a genuine
bound. -/
theorem num_styles_pos : 0 < NUM_STYLES := by decide

/-- Helper: every path through `processCommand` either leaves
`cycleIndex` alone or stores a `% NUM_STYLES` residue via
`rebootToStyle`. -/
theorem processCommand_cycleIndex_cases (frames freeRAM : Nat)
    (cmd : List Char) (st : UserState) :
    ((processCommand frames freeRAM cmd st).1).cycleIndex =
      st.cycleIndex ∨
    ((processCommand frames freeRAM cmd st).1).cycleIndex <
      NUM_STYLES := by
  unfold processCommand
  dsimp only
  split
  · split
    · exact Or.inl rfl
    · split
      · exact Or.inr
          (Nat.mod_lt _ num_styles_pos)
      · split
        · exact Or.inr (Nat.mod_lt _ num_styles_pos)
        · exact Or.inl rfl
  · split
    · split
      · exact Or.inl rfl
      · split
        · exact Or.inl rfl
        · exact Or.inl rfl
    · split
      · exact Or.inl rfl
      · split
        · exact Or.inl rfl
        · exact Or.inl rfl

/-- C10: the style-cycling layer keeps `cycleIndex` strictly below
`NUM_STYLES`, so every `styleTable` access is in bounds:
`loadCycleState` always yields an in-range index and clamps an
out-of-range payload to 0 even under a valid magic tag; `rebootToStyle`
reduces its (uint8) argument modulo `NUM_STYLES` before storing and
persisting it; and `processCommand` preserves the bound. -/
theorem c10_cycle_index_always_in_bounds :
    (∀ v0 v1 : Nat, (loadCycleState v0 v1).1 < NUM_STYLES) ∧
    (∀ v0 v1 : Nat, v0 &&& 0xFFFF0000 = CYCLE_MAGIC_MASK →
      NUM_STYLES ≤ v0 &&& 0xFF → (loadCycleState v0 v1).1 = 0) ∧
    (∀ (idx : Nat) (st : UserState),
      ((rebootToStyle idx st).1).cycleIndex = idx % 256 % NUM_STYLES ∧
      idx % 256 % NUM_STYLES < NUM_STYLES ∧
      ((rebootToStyle idx st).1).bkup0 =
        CYCLE_MAGIC_MASK ||| (idx % 256 % NUM_STYLES)) ∧
    (∀ (frames freeRAM : Nat) (cmd : List Char) (st : UserState),
      st.cycleIndex < NUM_STYLES →
      ((processCommand frames freeRAM cmd st).1).cycleIndex <
        NUM_STYLES) ∧
    (∀ v0 v1 : Nat, (loadCycleState v0 v1).1 < styleTable.length) := by
  have hload : ∀ v0 v1 : Nat, (loadCycleState v0 v1).1 < NUM_STYLES := by
    intro v0 v1
    unfold loadCycleState
    dsimp only
    split
    · split
      · exact num_styles_pos
      · omega
    · exact num_styles_pos
  refine ⟨hload, ?_, ?_, ?_, hload⟩
  · intro v0 v1 hm hge
    unfold loadCycleState
    dsimp only
    rw [if_pos hm, if_pos hge]
  · intro idx st
    exact ⟨rfl, Nat.mod_lt _ num_styles_pos, rfl⟩
  · intro frames freeRAM cmd st h
    rcases processCommand_cycleIndex_cases frames freeRAM cmd st with
      heq | hlt
    · rw [heq]; exact h
    · exact hlt

/-- C10 witness: concrete instances of every conjunct — zeroed
registers load in range; a valid tag with payload 32 clamps to 0;
`rebootToStyle 300` stores `300 % 256 % NUM_STYLES`; `MOOD:next` from
index 0 stays in range. -/
theorem c10_witness :
    (loadCycleState 0 0).1 < NUM_STYLES ∧
    (loadCycleState 0xC7C10020 0).1 = 0 ∧
    ((rebootToStyle 300 ⟨0, 1, 0, 0⟩).1.cycleIndex =
        300 % 256 % NUM_STYLES ∧
      300 % 256 % NUM_STYLES < NUM_STYLES ∧
      (rebootToStyle 300 ⟨0, 1, 0, 0⟩).1.bkup0 =
        CYCLE_MAGIC_MASK ||| (300 % 256 % NUM_STYLES)) ∧
    ((processCommand 0 0 "MOOD:next".data ⟨0, 1, 0, 0⟩).1).cycleIndex <
      NUM_STYLES ∧
    (loadCycleState 5 7).1 < styleTable.length :=
  ⟨c10_cycle_index_always_in_bounds.1 0 0,
   c10_cycle_index_always_in_bounds.2.1 0xC7C10020 0 (by decide)
     (by decide),
   c10_cycle_index_always_in_bounds.2.2.1 300 ⟨0, 1, 0, 0⟩,
   c10_cycle_index_always_in_bounds.2.2.2.1 0 0 "MOOD:next".data
     ⟨0, 1, 0, 0⟩ (by decide),
   c10_cycle_index_always_in_bounds.2.2.2.2 5 7⟩

/-- C7 counterexample: at a concrete state (index 0, cycling enabled),
`MOOD:list` emits no `MOOD:LIST` line and no `MOOD:CURRENT:` line: the
actual labels are `STYLE:LIST` / `STYLE:CURRENT:`, and a trailing
`AUTOCYCLE:` line makes it NUM_STYLES + 3 lines rather than the
claimed NUM_STYLES + 2. -/
theorem c7_counterexample_output_labels :
    "MOOD:LIST".data ∉
      (processCommand 0 0 "MOOD:list".data ⟨0, 1, 0, 0⟩).2.1 ∧
    "MOOD:CURRENT:hazel".data ∉
      (processCommand 0 0 "MOOD:list".data ⟨0, 1, 0, 0⟩).2.1 ∧
    (processCommand 0 0 "MOOD:list".data ⟨0, 1, 0, 0⟩).2.1.getD 0 [] =
      "STYLE:LIST".data ∧
    (processCommand 0 0 "MOOD:list".data ⟨0, 1, 0, 0⟩).2.1.length =
      NUM_STYLES + 3 := by
  refine ⟨by decide, by decide, by decide, by decide⟩

/-- C7 amended: processing `MOOD:list` emits `STYLE:LIST`, then one
line per style-table entry, each entry exactly once in declaration
order (the current entry carrying a ` [current]` marker), then a
`STYLE:CURRENT:<name>` line naming the active persona, then a final
`AUTOCYCLE:<on|off>` line; the state is unchanged and no reset
occurs. -/
theorem c7_mood_list_output_structure (frames freeRAM : Nat)
    (st : UserState) (h : st.cycleIndex < NUM_STYLES) :
    (processCommand frames freeRAM "MOOD:list".data st).1 = st ∧
    (processCommand frames freeRAM "MOOD:list".data st).2.2 = false ∧
    (processCommand frames freeRAM "MOOD:list".data st).2.1.length =
      NUM_STYLES + 3 ∧
    (processCommand frames freeRAM "MOOD:list".data st).2.1.getD 0 [] =
      "STYLE:LIST".data ∧
    (∀ i, i < NUM_STYLES →
      (processCommand frames freeRAM "MOOD:list".data st).2.1.getD
        (i + 1) [] = styleListLine st.cycleIndex i) ∧
    (processCommand frames freeRAM "MOOD:list".data st).2.1.getD
        (NUM_STYLES + 1) [] =
      "STYLE:CURRENT:".data ++ (styleTable.get ⟨st.cycleIndex, h⟩).name ∧
    (processCommand frames freeRAM "MOOD:list".data st).2.1.getD
        (NUM_STYLES + 2) [] =
      "AUTOCYCLE:".data ++
        (if st.cycleEnabled == 0 then "off".data else "on".data) := by
  have hpc : processCommand frames freeRAM "MOOD:list".data st =
      (st, moodListOutput st, false) := rfl
  rw [hpc]
  refine ⟨rfl, rfl, by simp [moodListOutput], rfl, ?_, ?_, ?_⟩
  · intro i hi
    simp only [moodListOutput, List.getD_cons_succ]
    rw [List.getD, List.get?_eq_getElem?, List.getElem?_append]
    simp [List.getElem?_map, List.getElem?_range, hi]
  · simp only [moodListOutput, List.getD_cons_succ]
    rw [List.getD, List.get?_eq_getElem?, List.getElem?_append]
    have h' : st.cycleIndex < styleTable.length := h
    simp [List.getD, List.getElem?_eq_getElem, h']
  · simp only [moodListOutput, List.getD_cons_succ]
    rw [List.getD, List.get?_eq_getElem?, List.getElem?_append]
    simp

/-- C7 witness: the structure theorem applied at a concrete state with
persona index 2 (`big_blue`) and cycling disabled. -/
theorem c7_witness :
    (processCommand 3 4 "MOOD:list".data ⟨2, 0, 0, 0⟩).1 =
      (⟨2, 0, 0, 0⟩ : UserState) ∧
    (processCommand 3 4 "MOOD:list".data ⟨2, 0, 0, 0⟩).2.2 = false ∧
    (processCommand 3 4 "MOOD:list".data ⟨2, 0, 0, 0⟩).2.1.length =
      NUM_STYLES + 3 ∧
    (processCommand 3 4 "MOOD:list".data ⟨2, 0, 0, 0⟩).2.1.getD 0 [] =
      "STYLE:LIST".data ∧
    (∀ i, i < NUM_STYLES →
      (processCommand 3 4 "MOOD:list".data ⟨2, 0, 0, 0⟩).2.1.getD
        (i + 1) [] = styleListLine 2 i) ∧
    (processCommand 3 4 "MOOD:list".data ⟨2, 0, 0, 0⟩).2.1.getD
        (NUM_STYLES + 1) [] =
      "STYLE:CURRENT:".data ++
        (styleTable.get ⟨2, by decide⟩).name ∧
    (processCommand 3 4 "MOOD:list".data ⟨2, 0, 0, 0⟩).2.1.getD
        (NUM_STYLES + 2) [] =
      "AUTOCYCLE:".data ++ "off".data :=
  c7_mood_list_output_structure 3 4 ⟨2, 0, 0, 0⟩ (by decide)

/-- Helper: the style-table search loop misses when no entry's name
matches case-insensitively, whatever its running index. -/
theorem findStyleIdx_eq_none (name : List Char) :
    ∀ (l : List StyleEntry), (∀ e ∈ l, caseEqL name e.name = false) →
    ∀ i, findStyleIdx name i l = none := by
  intro l
  induction l with
  | nil => intro _ i; rfl
  | cons e rest ih =>
    intro h i
    have he := h e (List.mem_cons_self e rest)
    simp only [findStyleIdx, he, Bool.false_eq_true, if_false]
    exact ih (fun x hx => h x (List.mem_cons_of_mem e hx)) (i + 1)

/-- C8 counterexample: the unknown name `xyz` is answered with
`UNKNOWN:STYLE:xyz`, not the claimed `UNKNOWN:MOOD:xyz` (state is
indeed unchanged). -/
theorem c8_counterexample_unknown_label :
    processCommand 0 0 "MOOD:xyz".data ⟨0, 1, 0, 0⟩ =
      (⟨0, 1, 0, 0⟩, ["UNKNOWN:STYLE:xyz".data], false) ∧
    "UNKNOWN:MOOD:xyz".data ∉
      (processCommand 0 0 "MOOD:xyz".data ⟨0, 1, 0, 0⟩).2.1 := by
  refine ⟨by decide, by decide⟩

/-- C8 amended: for every name that matches no persona-table entry
(and is not the reserved verb `list` or `next`, which have their own
handlers), processing `MOOD:<name>` leaves the current persona index,
the enabled flag and the persisted record unchanged, does not reset,
and emits the single line `UNKNOWN:STYLE:<name>` (the source's label,
not `UNKNOWN:MOOD:`). -/
theorem c8_unknown_mood_unchanged_diagnostic (frames freeRAM : Nat)
    (st : UserState) (name : List Char)
    (h1 : caseEqL name "list".data = false)
    (h2 : caseEqL name "next".data = false)
    (h3 : ∀ e ∈ styleTable, caseEqL name e.name = false) :
    processCommand frames freeRAM ("MOOD:".data ++ name) st =
      (st, ["UNKNOWN:STYLE:".data ++ name], false) := by
  have hfind : findStyleIdx name 0 styleTable = none :=
    findStyleIdx_eq_none name styleTable h3 0
  have hstep : processCommand frames freeRAM ("MOOD:".data ++ name) st =
      (if caseEqL name "list".data then (st, moodListOutput st, false)
       else if caseEqL name "next".data then
         rebootToStyle (st.cycleIndex + 1) st
       else
         match findStyleIdx name 0 styleTable with
         | some i => rebootToStyle i st
         | none => (st, ["UNKNOWN:STYLE:".data ++ name], false)) := rfl
  rw [hstep, hfind]
  simp [h1, h2]

/-- C8 witness: the amended theorem at the concrete unknown name
`zzz` from a concrete state. -/
theorem c8_witness :
    processCommand 1 2 ("MOOD:".data ++ "zzz".data) ⟨3, 1, 0, 0⟩ =
      (⟨3, 1, 0, 0⟩, ["UNKNOWN:STYLE:".data ++ "zzz".data], false) :=
  c8_unknown_mood_unchanged_diagnostic 1 2 ⟨3, 1, 0, 0⟩ "zzz".data
    (by decide) (by decide) (by decide)


/-- Helper: one-step equation of `feedSerial` for a non-newline
character. -/
theorem feedSerial_cons_other (frames freeRAM : Nat) (st : UserState)
    (buf : List Char) (c : Char) (rest : List Char)
    (hcb : (c == '\n' || c == '\r') = false) :
    feedSerial frames freeRAM st buf (c :: rest) =
      if buf.length < 63 then
        feedSerial frames freeRAM st (buf ++ [c]) rest
      else feedSerial frames freeRAM st buf rest := by
  conv_lhs => unfold feedSerial
  rw [hcb]
  simp

/-- Helper: one-step equation of `feedSerial` for a newline arriving on
a non-empty buffer: the buffered line is processed as a command. -/
theorem feedSerial_cons_nl (frames freeRAM : Nat) (st : UserState)
    (buf : List Char) (c : Char) (rest : List Char)
    (hcb : (c == '\n' || c == '\r') = true)
    (hne : buf.isEmpty = false) :
    feedSerial frames freeRAM st buf (c :: rest) =
      (if (processCommand frames freeRAM buf st).2.2 then
        ((processCommand frames freeRAM buf st).1, [],
         (processCommand frames freeRAM buf st).2.1, true)
       else
         ((feedSerial frames freeRAM
             (processCommand frames freeRAM buf st).1 [] rest).1,
          (feedSerial frames freeRAM
             (processCommand frames freeRAM buf st).1 [] rest).2.1,
          (processCommand frames freeRAM buf st).2.1 ++
            (feedSerial frames freeRAM
               (processCommand frames freeRAM buf st).1 [] rest).2.2.1,
          (feedSerial frames freeRAM
             (processCommand frames freeRAM buf st).1 [] rest).2.2.2)) := by
  conv_lhs => unfold feedSerial
  rw [hcb, hne]
  simp

/-- Helper: feeding non-newline characters accumulates into the line
buffer, which silently drops every character past the 63rd
(`serialIdx < sizeof(serialBuf) - 1`). -/
theorem feedSerial_accum (frames freeRAM : Nat) (line : List Char) :
    ∀ (st : UserState) (buf rest : List Char), buf.length ≤ 63 →
    (∀ c ∈ line, c ≠ '\n' ∧ c ≠ '\r') →
    feedSerial frames freeRAM st buf (line ++ rest) =
      feedSerial frames freeRAM st (buf ++ line.take (63 - buf.length))
        rest := by
  induction line with
  | nil => intro st buf rest _ _; simp
  | cons c line ih =>
    intro st buf rest hb hl
    have hc := hl c (List.mem_cons_self c line)
    have hcb : (c == '\n' || c == '\r') = false := by
      simp [hc.1, hc.2]
    have htl : ∀ x ∈ line, x ≠ '\n' ∧ x ≠ '\r' :=
      fun x hx => hl x (List.mem_cons_of_mem c hx)
    rw [List.cons_append, feedSerial_cons_other frames freeRAM st buf c
      (line ++ rest) hcb]
    by_cases hlt : buf.length < 63
    · rw [if_pos hlt, ih st (buf ++ [c]) rest (by simp; omega) htl]
      have h1 : 63 - buf.length = (63 - (buf ++ [c]).length) + 1 := by
        simp; omega
      rw [h1, List.take_succ_cons]
      simp [List.append_assoc]
    · rw [if_neg hlt, ih st buf rest hb htl]
      have h0 : 63 - buf.length = 0 := by omega
      rw [h0]
      simp

/-- Helper: the serial line buffer never exceeds 63 characters. -/
theorem feedSerial_buf_le (frames freeRAM : Nat) :
    ∀ (input : List Char) (st : UserState) (buf : List Char),
    buf.length ≤ 63 →
    ((feedSerial frames freeRAM st buf input).2.1).length ≤ 63 := by
  intro input
  induction input with
  | nil => intro st buf hb; exact hb
  | cons c rest ih =>
    intro st buf hb
    by_cases hc : (c == '\n' || c == '\r') = true
    · by_cases he : buf.isEmpty = true
      · have hskip : feedSerial frames freeRAM st buf (c :: rest) =
            feedSerial frames freeRAM st buf rest := by
          conv_lhs => unfold feedSerial
          rw [hc, he]
          simp
        rw [hskip]
        exact ih st buf hb
      · rw [feedSerial_cons_nl frames freeRAM st buf c rest hc
          (Bool.not_eq_true _ ▸ he)]
        by_cases hr : (processCommand frames freeRAM buf st).2.2 = true
        · rw [if_pos hr]; simp
        · rw [if_neg hr]
          exact ih (processCommand frames freeRAM buf st).1 [] (by simp)
    · rw [feedSerial_cons_other frames freeRAM st buf c rest
        (Bool.not_eq_true _ ▸ hc)]
      by_cases hlt : buf.length < 63
      · rw [if_pos hlt]
        exact ih st (buf ++ [c]) (by simp; omega)
      · rw [if_neg hlt]
        exact ih st buf hb

/-- C9 amended: for every newline-terminated input line longer than the
63 usable bytes of the serial line buffer, the excess characters are
silently dropped (the store guard `serialIdx < sizeof(serialBuf) - 1`
simply stops accepting characters), so the command processed consists
of the first 63 characters of the line — not of the first 62 plus the
final character — and the buffer never grows beyond 63 characters. -/
theorem c9_long_line_truncated_to_63 (frames freeRAM : Nat)
    (st : UserState) (line : List Char)
    (hnl : ∀ c ∈ line, c ≠ '\n' ∧ c ≠ '\r')
    (hlong : 63 < line.length) :
    feedSerial frames freeRAM st [] (line ++ ['\n']) =
      ((processCommand frames freeRAM (line.take 63) st).1, [],
       (processCommand frames freeRAM (line.take 63) st).2.1,
       (processCommand frames freeRAM (line.take 63) st).2.2) ∧
    (∀ (input buf : List Char) (st2 : UserState), buf.length ≤ 63 →
      ((feedSerial frames freeRAM st2 buf input).2.1).length ≤ 63) := by
  constructor
  · rw [feedSerial_accum frames freeRAM line st [] ['\n'] (by simp) hnl]
    simp only [List.nil_append, List.length_nil, Nat.sub_zero]
    have htlen : (line.take 63).length = 63 := by
      rw [List.length_take]
      omega
    have htne : line.take 63 ≠ [] := by
      intro h
      rw [h] at htlen
      simp at htlen
    have hne : (line.take 63).isEmpty = false := by
      cases hh : line.take 63 with
      | nil => exact absurd hh htne
      | cons a l => rfl
    rw [feedSerial_cons_nl frames freeRAM st (line.take 63) '\n' []
      (by decide) hne]
    by_cases hr : (processCommand frames freeRAM (line.take 63) st).2.2 =
        true
    · rw [if_pos hr, hr]
    · rw [if_neg hr]
      have hnil : feedSerial frames freeRAM
          (processCommand frames freeRAM (line.take 63) st).1 [] [] =
          ((processCommand frames freeRAM (line.take 63) st).1, [], [],
            false) := rfl
      rw [hnil]
      simp only [List.append_nil]
      rw [Bool.not_eq_true] at hr
      rw [hr]
  · exact fun input buf st2 hb =>
      feedSerial_buf_le frames freeRAM input st2 buf hb

/-- C9 counterexample: a 70-character line (69 × `a` then `b`) followed
by newline is processed as the first 63 characters (63 × `a`); the
command the claim predicts — the first 62 characters followed by the
final character `b` — is not what is processed, and no such line is
emitted. -/
theorem c9_counterexample_keeps_first_63 :
    (feedSerial 0 0 ⟨0, 1, 0, 0⟩ []
        ((List.replicate 69 'a' ++ ['b']) ++ ['\n'])).2.2.1 =
      ["UNKNOWN:CMD:".data ++ List.replicate 63 'a'] ∧
    ("UNKNOWN:CMD:".data ++ (List.replicate 62 'a' ++ ['b'])) ∉
      (feedSerial 0 0 ⟨0, 1, 0, 0⟩ []
        ((List.replicate 69 'a' ++ ['b']) ++ ['\n'])).2.2.1 := by
  refine ⟨by decide, by decide⟩

/-- C9 witness: the truncation theorem applied to a concrete
70-character line of `a`s. -/
theorem c9_witness :
    feedSerial 0 0 ⟨0, 1, 0, 0⟩ [] (List.replicate 70 'a' ++ ['\n']) =
      ((processCommand 0 0 ((List.replicate 70 'a').take 63)
          ⟨0, 1, 0, 0⟩).1, [],
       (processCommand 0 0 ((List.replicate 70 'a').take 63)
          ⟨0, 1, 0, 0⟩).2.1,
       (processCommand 0 0 ((List.replicate 70 'a').take 63)
          ⟨0, 1, 0, 0⟩).2.2) :=
  (c9_long_line_truncated_to_63 0 0 ⟨0, 1, 0, 0⟩ (List.replicate 70 'a')
    (by decide) (by decide)).1


/-- Helper: `addCachedTexture` never touches the decode log. -/
theorem addCachedTexture_log (ts : TexState) (f : List Char) (d : Ptr)
    (w h : Nat) : (addCachedTexture ts f d w h).log = ts.log := by
  unfold addCachedTexture
  split <;> rfl

/-- Helper: the cache after `loadTextureWithCache` is either untouched
or extended by exactly one entry, appended only on a miss with free
capacity and carrying the 47-character-truncated name. -/
theorem loadTextureWithCache_cache_cases
    (oracle : List Char → Option (Nat × Nat)) (slot : Slot)
    (fname : Option (List Char)) (fallback : Ptr) (ts : TexState) :
    (loadTextureWithCache oracle slot fname fallback ts).2.cache =
      ts.cache ∨
    ∃ f d w h, fname = some f ∧ findCachedTexture ts.cache f = none ∧
      ts.cache.length < MAX_CACHED_TEXTURES ∧
      (loadTextureWithCache oracle slot fname fallback ts).2.cache =
        ts.cache ++ [⟨f.take 47, d, w, h⟩] := by
  unfold loadTextureWithCache
  cases fname with
  | none => exact Or.inl rfl
  | some f =>
    dsimp only
    cases hc : findCachedTexture ts.cache f with
    | some e => exact Or.inl rfl
    | none =>
      cases ho : oracle f with
      | none => exact Or.inl rfl
      | some wh =>
        dsimp only
        unfold addCachedTexture
        dsimp only
        by_cases hlen : ts.cache.length ≥ MAX_CACHED_TEXTURES
        · rw [if_pos hlen]
          exact Or.inl rfl
        · rw [if_neg hlen]
          exact Or.inr ⟨f, Ptr.alloc ts.nextAlloc, wh.1, wh.2, rfl, hc,
            by omega, rfl⟩

/-- C4 counterexample: a 48-character identifier, loaded twice through
`loadTextureWithCache` from the empty cache with a succeeding decoder,
produces two cache entries with the same stored identifier: `strncpy`
truncation makes the second lookup miss the first entry, so the claim's
uniqueness invariant fails without a length bound on identifiers. -/
theorem c4_counterexample_truncation_duplicate :
    findCachedTexture
      ((loadTextureWithCache (fun _ => some (1, 1)) .iris
          (some (List.replicate 48 'a')) Ptr.null ⟨[], 0, []⟩).2).cache
      (List.replicate 48 'a') = none ∧
    ((loadTextureWithCache (fun _ => some (1, 1)) .iris
        (some (List.replicate 48 'a')) Ptr.null
        ((loadTextureWithCache (fun _ => some (1, 1)) .iris
            (some (List.replicate 48 'a')) Ptr.null
            ⟨[], 0, []⟩).2)).2).cache.length = 2 ∧
    (((loadTextureWithCache (fun _ => some (1, 1)) .iris
        (some (List.replicate 48 'a')) Ptr.null
        ((loadTextureWithCache (fun _ => some (1, 1)) .iris
            (some (List.replicate 48 'a')) Ptr.null
            ⟨[], 0, []⟩).2)).2).cache.getD 0 ⟨[], .null, 0, 0⟩).filename =
    (((loadTextureWithCache (fun _ => some (1, 1)) .iris
        (some (List.replicate 48 'a')) Ptr.null
        ((loadTextureWithCache (fun _ => some (1, 1)) .iris
            (some (List.replicate 48 'a')) Ptr.null
            ⟨[], 0, []⟩).2)).2).cache.getD 1 ⟨[], .null, 0, 0⟩).filename := by
  refine ⟨by decide, by decide, by decide⟩

/-- C4 amended: restricted to identifiers within the 47-character bound
of the cache's fixed name buffer (the documented caller obligation),
every cache state reachable through `loadTextureWithCache` has pairwise
distinct identifiers; a lookup after an insert performed under the
conditions of the reachable system (miss, free capacity) returns
exactly the inserted triple; and an insert into a full cache of 8 is
rejected with the state — in particular all 8 existing entries —
completely undisturbed. -/
theorem c4_cache_unique_insert_lookup_capacity (ts : TexState)
    (h : CacheReachable ts) (f : List Char) (d : Ptr) (w hgt : Nat) :
    ts.cache.Pairwise (fun a b => a.filename ≠ b.filename) ∧
    (f.length ≤ 47 → findCachedTexture ts.cache f = none →
      ts.cache.length < MAX_CACHED_TEXTURES →
      findCachedTexture (addCachedTexture ts f d w hgt).cache f =
        some ⟨f, d, w, hgt⟩) ∧
    (ts.cache.length = MAX_CACHED_TEXTURES →
      addCachedTexture ts f d w hgt = ts) := by
  refine ⟨?_, ?_, ?_⟩
  · induction h with
    | init => exact List.Pairwise.nil
    | step oracle slot fname fallback hr hlen ih =>
      rcases loadTextureWithCache_cache_cases oracle slot fname fallback
        _ with hc | ⟨g, d', w', h', hg, hfind, hlt, hc⟩
      · rw [hc]; exact ih
      · rw [hc, List.pairwise_append]
        refine ⟨ih, List.pairwise_singleton _ _, ?_⟩
        intro a ha b hb
        rw [List.mem_singleton] at hb
        subst hb
        unfold findCachedTexture at hfind
        rw [List.find?_eq_none] at hfind
        have hne : ¬(a.filename == g) = true := by
          simpa using hfind a ha
        show a.filename ≠ List.take 47 g
        rw [List.take_of_length_le (hlen g hg)]
        intro hcontra
        exact hne (by rw [hcontra]; exact beq_self_eq_true _)
  · intro h47 hfind hlt
    unfold addCachedTexture
    rw [if_neg (by omega)]
    unfold findCachedTexture at hfind ⊢
    rw [List.find?_append, hfind, Option.none_or,
      List.take_of_length_le h47]
    simp
  · intro h8
    unfold addCachedTexture
    rw [if_pos (by omega)]

/-- C4 witness: the cache properties instantiated at a concrete
reachable one-entry state (texture `x` loaded at boot) and a fresh
identifier `y`. -/
theorem c4_witness :
    ((loadTextureWithCache oracleX .iris (some "x".data) Ptr.null
        ⟨[], 0, []⟩).2).cache.Pairwise
      (fun a b => a.filename ≠ b.filename) ∧
    ("y".data.length ≤ 47 →
      findCachedTexture
        ((loadTextureWithCache oracleX .iris (some "x".data) Ptr.null
            ⟨[], 0, []⟩).2).cache "y".data = none →
      ((loadTextureWithCache oracleX .iris (some "x".data) Ptr.null
          ⟨[], 0, []⟩).2).cache.length < MAX_CACHED_TEXTURES →
      findCachedTexture
        (addCachedTexture
          ((loadTextureWithCache oracleX .iris (some "x".data) Ptr.null
              ⟨[], 0, []⟩).2) "y".data Ptr.null 5 6).cache "y".data =
        some ⟨"y".data, Ptr.null, 5, 6⟩) ∧
    (((loadTextureWithCache oracleX .iris (some "x".data) Ptr.null
        ⟨[], 0, []⟩).2).cache.length = MAX_CACHED_TEXTURES →
      addCachedTexture
        ((loadTextureWithCache oracleX .iris (some "x".data) Ptr.null
            ⟨[], 0, []⟩).2) "y".data Ptr.null 5 6 =
        (loadTextureWithCache oracleX .iris (some "x".data) Ptr.null
          ⟨[], 0, []⟩).2) :=
  c4_cache_unique_insert_lookup_capacity
    (loadTextureWithCache oracleX .iris (some "x".data) Ptr.null
      ⟨[], 0, []⟩).2
    (CacheReachable.step oracleX .iris (some "x".data) Ptr.null
      CacheReachable.init (by intro f hf; cases hf; decide))
    "y".data Ptr.null 5 6

/-- Helper: reading back the slot just written. -/
theorem slotGet_slotSetTex_same (s : Slot) (e : EyeState)
    (t : EyeTexSide) : slotGet s (slotSetTex s e t) = t := by
  cases s <;> rfl

/-- Helper: `resolveSlot` in the sharing branch. -/
theorem resolveSlot_dedup (oracle : List Char → Option (Nat × Nat))
    (s : Slot) (idx : Nat) (P : List EyeState) (e : EyeState)
    (ts : TexState) (p : EyeState)
    (hf : List.find? (dedupPred s (slotGet s e)) P = some p) :
    resolveSlot oracle s idx P e ts =
      (slotSetTex s e
        { slotGet s e with
          data := (slotGet s p).data
          width := (slotGet s p).width
          height := (slotGet s p).height },
       ts) := by
  unfold resolveSlot
  dsimp only
  rw [hf]

/-- Helper: `resolveSlot` in the cache/decoder branch. -/
theorem resolveSlot_load (oracle : List Char → Option (Nat × Nat))
    (s : Slot) (idx : Nat) (P : List EyeState) (e : EyeState)
    (ts : TexState)
    (hf : List.find? (dedupPred s (slotGet s e)) P = none) :
    resolveSlot oracle s idx P e ts =
      (slotSetTex s e
        { slotGet s e with
          data := (loadTextureWithCache oracle s (slotGet s e).filename
            (Ptr.colorField s idx) ts).1.data
          width := (loadTextureWithCache oracle s (slotGet s e).filename
            (Ptr.colorField s idx) ts).1.width
          height := (loadTextureWithCache oracle s (slotGet s e).filename
            (Ptr.colorField s idx) ts).1.height },
       (loadTextureWithCache oracle s (slotGet s e).filename
         (Ptr.colorField s idx) ts).2) := by
  unfold resolveSlot
  dsimp only
  rw [hf]

/-- Helper: texture resolution never rewrites any filename field. -/
theorem resolveSlot_filename (oracle : List Char → Option (Nat × Nat))
    (s s' : Slot) (idx : Nat) (P : List EyeState) (e : EyeState)
    (ts : TexState) :
    (slotGet s' (resolveSlot oracle s idx P e ts).1).filename =
      (slotGet s' e).filename := by
  cases hf : List.find? (dedupPred s (slotGet s e)) P with
  | some p =>
    rw [resolveSlot_dedup oracle s idx P e ts p hf]
    cases s <;> cases s' <;> rfl
  | none =>
    rw [resolveSlot_load oracle s idx P e ts hf]
    cases s <;> cases s' <;> rfl

/-- Helper: resolving the sclera slot leaves the iris side intact. -/
theorem resolveSlot_sclera_keeps_iris
    (oracle : List Char → Option (Nat × Nat)) (idx : Nat)
    (P : List EyeState) (e : EyeState) (ts : TexState) :
    slotGet .iris (resolveSlot oracle .sclera idx P e ts).1 =
      slotGet .iris e := by
  cases hf : List.find? (dedupPred .sclera (slotGet .sclera e)) P with
  | some p => rw [resolveSlot_dedup oracle .sclera idx P e ts p hf]; rfl
  | none => rw [resolveSlot_load oracle .sclera idx P e ts hf]; rfl

/-- Helper: resolving the iris slot leaves the sclera side intact. -/
theorem resolveSlot_iris_keeps_sclera
    (oracle : List Char → Option (Nat × Nat)) (idx : Nat)
    (P : List EyeState) (e : EyeState) (ts : TexState) :
    slotGet .sclera (resolveSlot oracle .iris idx P e ts).1 =
      slotGet .sclera e := by
  cases hf : List.find? (dedupPred .iris (slotGet .iris e)) P with
  | some p => rw [resolveSlot_dedup oracle .iris idx P e ts p hf]; rfl
  | none => rw [resolveSlot_load oracle .iris idx P e ts hf]; rfl

/-- Helper: the sharing predicate holds exactly for earlier eyes with
the same non-NULL filename. -/
theorem dedupPred_eq_true_iff (s : Slot) (side : EyeTexSide)
    (f : List Char) (q : EyeState) (hside : side.filename = some f) :
    dedupPred s side q = true ↔ (slotGet s q).filename = some f := by
  unfold dedupPred
  rw [hside]
  cases hq : (slotGet s q).filename with
  | none => simp
  | some b =>
    dsimp only
    rw [beq_iff_eq]
    exact ⟨fun h => by rw [h], fun h => (Option.some_inj.mp h).symm⟩

/-- Helper: the decode log after `loadTextureWithCache` is either
untouched (NULL name or cache hit) or extended by exactly the one
call-site-tagged decoder invocation. -/
theorem loadTextureWithCache_log_cases
    (oracle : List Char → Option (Nat × Nat)) (s : Slot)
    (fname : Option (List Char)) (fallback : Ptr) (ts : TexState) :
    (loadTextureWithCache oracle s fname fallback ts).2.log = ts.log ∨
    ∃ f, fname = some f ∧
      (loadTextureWithCache oracle s fname fallback ts).2.log =
        ts.log ++ [(s, f)] := by
  unfold loadTextureWithCache
  cases fname with
  | none => exact Or.inl rfl
  | some f =>
    dsimp only
    cases hc : findCachedTexture ts.cache f with
    | some e => exact Or.inl rfl
    | none =>
      cases ho : oracle f with
      | none => exact Or.inr ⟨f, rfl, rfl⟩
      | some wh =>
        dsimp only
        exact Or.inr ⟨f, rfl, by rw [addCachedTexture_log]⟩

/-- Helper: one `resolveSlot` adds at most one decode-log entry for any
given (slot, identifier) pair. -/
theorem resolveSlot_count_le (oracle : List Char → Option (Nat × Nat))
    (s : Slot) (idx : Nat) (P : List EyeState) (e : EyeState)
    (ts : TexState) (s2 : Slot) (f : List Char) :
    (resolveSlot oracle s idx P e ts).2.log.count (s2, f) ≤
      ts.log.count (s2, f) + 1 := by
  cases hf : List.find? (dedupPred s (slotGet s e)) P with
  | some p =>
    rw [resolveSlot_dedup oracle s idx P e ts p hf]
    exact Nat.le_succ _
  | none =>
    rw [resolveSlot_load oracle s idx P e ts hf]
    rcases loadTextureWithCache_log_cases oracle s (slotGet s e).filename
      (Ptr.colorField s idx) ts with hl | ⟨g, _, hl⟩
    · rw [hl]; exact Nat.le_succ _
    · rw [hl, List.count_append]
      have := List.count_le_length ((s2, f)) [(s, g)]
      simp at this
      omega

/-- Helper: resolving slot `s` never logs a decode for the other
slot. -/
theorem resolveSlot_count_other (oracle : List Char → Option (Nat × Nat))
    (s : Slot) (idx : Nat) (P : List EyeState) (e : EyeState)
    (ts : TexState) (s2 : Slot) (f : List Char) (hne : s2 ≠ s) :
    (resolveSlot oracle s idx P e ts).2.log.count (s2, f) =
      ts.log.count (s2, f) := by
  cases hf : List.find? (dedupPred s (slotGet s e)) P with
  | some p => rw [resolveSlot_dedup oracle s idx P e ts p hf]
  | none =>
    rw [resolveSlot_load oracle s idx P e ts hf]
    rcases loadTextureWithCache_log_cases oracle s (slotGet s e).filename
      (Ptr.colorField s idx) ts with hl | ⟨g, _, hl⟩
    · rw [hl]
    · have h0 : List.count ((s2, f)) [(s, g)] = 0 :=
        List.count_eq_zero_of_not_mem
          (fun hm => hne (congrArg Prod.fst (List.mem_singleton.mp hm)))
      rw [hl, List.count_append, h0, Nat.add_zero]

/-- Helper: resolving slot `s` of an eye whose slot-`s` filename is not
`f` never logs a decode for `(s, f)`. -/
theorem resolveSlot_count_ne_filename
    (oracle : List Char → Option (Nat × Nat)) (s : Slot) (idx : Nat)
    (P : List EyeState) (e : EyeState) (ts : TexState) (f : List Char)
    (hnf : (slotGet s e).filename ≠ some f) :
    (resolveSlot oracle s idx P e ts).2.log.count (s, f) =
      ts.log.count (s, f) := by
  cases hf : List.find? (dedupPred s (slotGet s e)) P with
  | some p => rw [resolveSlot_dedup oracle s idx P e ts p hf]
  | none =>
    rw [resolveSlot_load oracle s idx P e ts hf]
    rcases loadTextureWithCache_log_cases oracle s (slotGet s e).filename
      (Ptr.colorField s idx) ts with hl | ⟨g, hg, hl⟩
    · rw [hl]
    · have hgf : g ≠ f := fun hc => hnf (hc ▸ hg)
      have h0 : List.count ((s, f)) [(s, g)] = 0 :=
        List.count_eq_zero_of_not_mem
          (fun hm => hgf (congrArg Prod.snd (List.mem_singleton.mp hm)).symm)
      rw [hl, List.count_append, h0, Nat.add_zero]

/-- Helper: once some earlier eye carries `(s, f)`, resolving slot `s`
of any further eye is decode-free for `(s, f)` (the sharing branch or a
different name applies). -/
theorem resolveSlot_count_exists (oracle : List Char → Option (Nat × Nat))
    (s : Slot) (idx : Nat) (P : List EyeState) (e : EyeState)
    (ts : TexState) (f : List Char)
    (hex : ∃ p ∈ P, (slotGet s p).filename = some f) :
    (resolveSlot oracle s idx P e ts).2.log.count (s, f) =
      ts.log.count (s, f) := by
  by_cases hf : (slotGet s e).filename = some f
  · obtain ⟨p, hp, hpf⟩ := hex
    cases hfind : List.find? (dedupPred s (slotGet s e)) P with
    | some q => rw [resolveSlot_dedup oracle s idx P e ts q hfind]
    | none =>
      exfalso
      rw [List.find?_eq_none] at hfind
      exact hfind p hp
        ((dedupPred_eq_true_iff s (slotGet s e) f p hf).mpr hpf)
  · exact resolveSlot_count_ne_filename oracle s idx P e ts f hf

/-- Helper: resolving both slots of an eye preserves both filename
fields. -/
theorem resolveEye_filename_slot (oracle : List Char → Option (Nat × Nat))
    (idx : Nat) (P : List EyeState) (e : EyeState) (ts : TexState)
    (s : Slot) :
    (slotGet s (resolveEye oracle idx P e ts).1).filename =
      (slotGet s e).filename := by
  unfold resolveEye
  dsimp only
  rw [resolveSlot_filename, resolveSlot_filename]

/-- Helper: resolving both slots of an eye preserves the filename
pair. -/
theorem resolveEye_filenames (oracle : List Char → Option (Nat × Nat))
    (idx : Nat) (P : List EyeState) (e : EyeState) (ts : TexState) :
    eyeFilenames (resolveEye oracle idx P e ts).1 = eyeFilenames e := by
  unfold eyeFilenames
  have hi := resolveEye_filename_slot oracle idx P e ts .iris
  have hs := resolveEye_filename_slot oracle idx P e ts .sclera
  unfold slotGet at hi hs
  rw [hi, hs]

/-- Helper: resolving one eye adds at most one decode-log entry per
(slot, identifier) pair. -/
theorem resolveEye_count_le (oracle : List Char → Option (Nat × Nat))
    (idx : Nat) (P : List EyeState) (e : EyeState) (ts : TexState)
    (s : Slot) (f : List Char) :
    (resolveEye oracle idx P e ts).2.log.count (s, f) ≤
      ts.log.count (s, f) + 1 := by
  unfold resolveEye
  dsimp only
  cases s with
  | iris =>
    rw [resolveSlot_count_other oracle .sclera idx P _ _ .iris f
      (by decide)]
    exact resolveSlot_count_le oracle .iris idx P e ts .iris f
  | sclera =>
    calc (resolveSlot oracle .sclera idx P
            (resolveSlot oracle .iris idx P e ts).1
            (resolveSlot oracle .iris idx P e ts).2).2.log.count
          (Slot.sclera, f)
        ≤ (resolveSlot oracle .iris idx P e ts).2.log.count
            (Slot.sclera, f) + 1 :=
          resolveSlot_count_le oracle .sclera idx P _ _ .sclera f
      _ = ts.log.count (Slot.sclera, f) + 1 := by
          rw [resolveSlot_count_other oracle .iris idx P e ts .sclera f
            (by decide)]

/-- Helper: once some earlier eye carries `(s, f)`, resolving a whole
further eye is decode-free for `(s, f)`. -/
theorem resolveEye_count_exists (oracle : List Char → Option (Nat × Nat))
    (idx : Nat) (P : List EyeState) (e : EyeState) (ts : TexState)
    (s : Slot) (f : List Char)
    (hex : ∃ p ∈ P, (slotGet s p).filename = some f) :
    (resolveEye oracle idx P e ts).2.log.count (s, f) =
      ts.log.count (s, f) := by
  unfold resolveEye
  dsimp only
  cases s with
  | iris =>
    rw [resolveSlot_count_other oracle .sclera idx P _ _ .iris f
      (by decide)]
    exact resolveSlot_count_exists oracle .iris idx P e ts f hex
  | sclera =>
    rw [resolveSlot_count_exists oracle .sclera idx P _ _ f hex]
    exact resolveSlot_count_other oracle .iris idx P e ts .sclera f
      (by decide)

/-- Helper: resolving an eye that does not request `(s, f)` is
decode-free for `(s, f)`. -/
theorem resolveEye_count_ne (oracle : List Char → Option (Nat × Nat))
    (idx : Nat) (P : List EyeState) (e : EyeState) (ts : TexState)
    (s : Slot) (f : List Char)
    (hnf : (slotGet s e).filename ≠ some f) :
    (resolveEye oracle idx P e ts).2.log.count (s, f) =
      ts.log.count (s, f) := by
  unfold resolveEye
  dsimp only
  cases s with
  | iris =>
    rw [resolveSlot_count_other oracle .sclera idx P _ _ .iris f
      (by decide)]
    exact resolveSlot_count_ne_filename oracle .iris idx P e ts f hnf
  | sclera =>
    have hpres : (slotGet .sclera
        (resolveSlot oracle .iris idx P e ts).1).filename ≠ some f := by
      rw [resolveSlot_filename]
      exact hnf
    rw [resolveSlot_count_ne_filename oracle .sclera idx P _ _ f hpres]
    exact resolveSlot_count_other oracle .iris idx P e ts .sclera f
      (by decide)

/-- Helper: when an earlier eye `p` shares the slot-`s` identifier of
the eye being resolved, the resolved eye ends up with `p`'s pixel-data
pointer (through the first match found, equal to `p`'s by the sharing
invariant). -/
theorem resolveEye_data_of_match (oracle : List Char → Option (Nat × Nat))
    (idx : Nat) (P : List EyeState) (e : EyeState) (ts : TexState)
    (s : Slot) (f : List Char)
    (hf : (slotGet s e).filename = some f)
    (p : EyeState) (hp : p ∈ P)
    (hpf : (slotGet s p).filename = some f)
    (hinv : SameSlotSameData P) :
    (slotGet s (resolveEye oracle idx P e ts).1).data =
      (slotGet s p).data := by
  unfold resolveEye
  dsimp only
  cases s with
  | iris =>
    rw [resolveSlot_sclera_keeps_iris]
    cases hfind : List.find? (dedupPred .iris (slotGet .iris e)) P with
    | none =>
      exfalso
      rw [List.find?_eq_none] at hfind
      exact hfind p hp
        ((dedupPred_eq_true_iff .iris (slotGet .iris e) f p hf).mpr hpf)
    | some q =>
      rw [resolveSlot_dedup oracle .iris idx P e ts q hfind,
        slotGet_slotSetTex_same]
      show (slotGet .iris q).data = (slotGet .iris p).data
      exact hinv .iris f q p (List.mem_of_find?_eq_some hfind) hp
        ((dedupPred_eq_true_iff .iris (slotGet .iris e) f q hf).mp
          (List.find?_some hfind)) hpf
  | sclera =>
    have hf1 : (slotGet .sclera
        (resolveSlot oracle .iris idx P e ts).1).filename = some f := by
      rw [resolveSlot_filename]
      exact hf
    cases hfind : List.find? (dedupPred .sclera
        (slotGet .sclera (resolveSlot oracle .iris idx P e ts).1)) P with
    | none =>
      exfalso
      rw [List.find?_eq_none] at hfind
      exact hfind p hp
        ((dedupPred_eq_true_iff .sclera _ f p hf1).mpr hpf)
    | some q =>
      rw [resolveSlot_dedup oracle .sclera idx P _ _ q hfind,
        slotGet_slotSetTex_same]
      show (slotGet .sclera q).data = (slotGet .sclera p).data
      exact hinv .sclera f q p (List.mem_of_find?_eq_some hfind) hp
        ((dedupPred_eq_true_iff .sclera _ f q hf1).mp
          (List.find?_some hfind)) hpf

/-- Helper: the empty processed list trivially satisfies the sharing
invariant. -/
theorem sameSlotSameData_nil : SameSlotSameData [] := by
  intro s f p q hp _ _ _
  exact absurd hp (List.not_mem_nil p)

/-- Helper: appending a freshly resolved eye preserves the sharing
invariant. -/
theorem sameSlotSameData_step (oracle : List Char → Option (Nat × Nat))
    (idx : Nat) (P : List EyeState) (e : EyeState) (ts : TexState)
    (hinv : SameSlotSameData P) :
    SameSlotSameData (P ++ [(resolveEye oracle idx P e ts).1]) := by
  intro s f p q hp hq hpf hqf
  rw [List.mem_append, List.mem_singleton] at hp hq
  rcases hp with hp | hp <;> rcases hq with hq | hq
  · exact hinv s f p q hp hq hpf hqf
  · subst hq
    have hef : (slotGet s e).filename = some f := by
      rw [← resolveEye_filename_slot oracle idx P e ts s]
      exact hqf
    exact (resolveEye_data_of_match oracle idx P e ts s f hef p hp hpf
      hinv).symm
  · subst hp
    have hef : (slotGet s e).filename = some f := by
      rw [← resolveEye_filename_slot oracle idx P e ts s]
      exact hpf
    exact resolveEye_data_of_match oracle idx P e ts s f hef q hq hqf
      hinv
  · subst hp
    subst hq
    rfl

/-- Helper: `getD` into the left part of an append. -/
theorem getD_append_left {α : Type} (l m : List α) (i : Nat) (d : α)
    (h : i < l.length) : (l ++ m).getD i d = l.getD i d := by
  simp [List.getD, List.getElem?_append, h]

/-- Helper: `getD` at the seam of an append with a singleton. -/
theorem getD_append_at {α : Type} (l : List α) (x d : α) :
    (l ++ [x]).getD l.length d = x := by
  simp [List.getD, List.getElem?_append]

/-- Helper: `getD` through `map` at an in-bounds index. -/
theorem getD_map_at {α β : Type} (h : α → β) (l : List α) (k : Nat)
    (d : β) (d' : α) (hk : k < l.length) :
    (l.map h).getD k d = h (l.getD k d') := by
  simp [List.getD, List.getElem?_map, List.getElem?_eq_getElem, hk]

/-- Helper: in-bounds `getD` produces a list member. -/
theorem getD_mem {α : Type} (l : List α) (k : Nat) (d : α)
    (hk : k < l.length) : l.getD k d ∈ l := by
  have hEq : l.getD k d = l.get ⟨k, hk⟩ := by
    simp [List.getD, List.getElem?_eq_getElem, hk]
  rw [hEq]
  exact List.get_mem l k hk

/-- Helper: full behaviour of the step-6 texture-resolution loop.
Starting from any processed prefix satisfying the sharing invariant:
the invariant holds of the final eye list; its length adds up; the
prefix is untouched; the processed eyes keep their filename fields
positionally; and per (slot, identifier) the decode log grows by at
most one entry — not at all once some processed eye already carries
the identifier in that slot. -/
theorem resolveTextures_spec (oracle : List Char → Option (Nat × Nat)) :
    ∀ (rest processed : List EyeState) (idx : Nat) (ts : TexState),
    SameSlotSameData processed →
    SameSlotSameData (resolveTextures oracle rest idx processed ts).1 ∧
    (resolveTextures oracle rest idx processed ts).1.length =
      processed.length + rest.length ∧
    (∀ k, k < processed.length →
      (resolveTextures oracle rest idx processed ts).1.getD k dEye =
        processed.getD k dEye) ∧
    (∀ k, k < rest.length →
      eyeFilenames ((resolveTextures oracle rest idx processed ts).1.getD
        (processed.length + k) dEye) =
        eyeFilenames (rest.getD k dEye)) ∧
    (∀ (s : Slot) (f : List Char),
      ((∃ p ∈ processed, (slotGet s p).filename = some f) →
        (resolveTextures oracle rest idx processed ts).2.log.count
          (s, f) = ts.log.count (s, f)) ∧
      (resolveTextures oracle rest idx processed ts).2.log.count (s, f) ≤
        ts.log.count (s, f) + 1) := by
  intro rest
  induction rest with
  | nil =>
    intro processed idx ts hinv
    refine ⟨hinv, by simp [resolveTextures], fun k _ => rfl, ?_, ?_⟩
    · intro k hk
      exact absurd hk (Nat.not_lt_zero k)
    · intro s f
      exact ⟨fun _ => rfl, Nat.le_succ _⟩
  | cons e rest ih =>
    intro processed idx ts hinv
    have hrec : resolveTextures oracle (e :: rest) idx processed ts =
        resolveTextures oracle rest (idx + 1)
          (processed ++ [(resolveEye oracle idx processed e ts).1])
          (resolveEye oracle idx processed e ts).2 := rfl
    rw [hrec]
    have hinv2 := sameSlotSameData_step oracle idx processed e ts hinv
    obtain ⟨IH1, IH2, IH3, IH4, IH5⟩ :=
      ih (processed ++ [(resolveEye oracle idx processed e ts).1])
        (idx + 1) (resolveEye oracle idx processed e ts).2 hinv2
    refine ⟨IH1, ?_, ?_, ?_, ?_⟩
    · rw [IH2]
      simp
      omega
    · intro k hk
      rw [IH3 k (by simp; omega)]
      exact getD_append_left processed _ k dEye hk
    · intro k hk
      cases k with
      | zero =>
        have h0 : processed.length + 0 = processed.length := rfl
        rw [h0]
        have hpos : processed.length <
            (processed ++
              [(resolveEye oracle idx processed e ts).1]).length := by
          simp
        have h1 := IH3 processed.length hpos
        rw [h1, getD_append_at, resolveEye_filenames]
        rfl
      | succ k2 =>
        have hk2 : k2 < rest.length := by
          simp only [List.length_cons] at hk
          omega
        have h1 := IH4 k2 hk2
        have hidx : (processed ++
            [(resolveEye oracle idx processed e ts).1]).length + k2 =
            processed.length + (k2 + 1) := by
          simp
          omega
        rw [hidx] at h1
        rw [h1]
        rfl
    · intro s f
      constructor
      · rintro ⟨p, hp, hpf⟩
        have h1 : (resolveEye oracle idx processed e ts).2.log.count
            (s, f) = ts.log.count (s, f) :=
          resolveEye_count_exists oracle idx processed e ts s f
            ⟨p, hp, hpf⟩
        have h2 := (IH5 s f).1 ⟨p, List.mem_append_left _ hp, hpf⟩
        rw [h2, h1]
      · by_cases hex : ∃ p ∈ processed ++
            [(resolveEye oracle idx processed e ts).1],
            (slotGet s p).filename = some f
        · rw [(IH5 s f).1 hex]
          exact resolveEye_count_le oracle idx processed e ts s f
        · have he2 : (slotGet s
              (resolveEye oracle idx processed e ts).1).filename ≠
              some f := fun hcon => hex
            ⟨(resolveEye oracle idx processed e ts).1,
             List.mem_append_right _ (List.mem_singleton_self _), hcon⟩
          have hef : (slotGet s e).filename ≠ some f := by
            rw [← resolveEye_filename_slot oracle idx processed e ts s]
            exact he2
          have h1 := resolveEye_count_ne oracle idx processed e ts s f
            hef
          have h2 := (IH5 s f).2
          rw [h1] at h2
          exact h2

/-- Helper: steps 8–9 (freeing temporary names and resuming rendering)
preserve every eye's pixel-data pointers. -/
theorem finalEyes_slot_data (g2 : Globals) (k : Nat)
    (hk : k < g2.eyes.length) (s : Slot) :
    (slotGet s ((stepResume (stepFreeTempNames g2)).eyes.getD k
      dEye)).data = (slotGet s (g2.eyes.getD k dEye)).data := by
  unfold stepResume stepFreeTempNames
  dsimp only
  rw [getD_map_at _ _ k dEye dEye (by simp [hk]),
    getD_map_at _ _ k dEye dEye hk]
  cases s <;> rfl

/-- Helper: equal filename pairs give equal slot filenames. -/
theorem eyeFilenames_slot (x y : EyeState)
    (h : eyeFilenames x = eyeFilenames y) (s : Slot) :
    (slotGet s x).filename = (slotGet s y).filename := by
  cases s
  · exact congrArg Prod.fst h
  · exact congrArg Prod.snd h

/-- C2 amended: for every pair of rendering units whose same texture
slot holds equal non-NULL identifier strings as written by `loadConfig`
(the post-configuration state), after `reloadEyeConfig` completes both
units reference the identical pixel-data pointer, and the external
decoder runs at most once for that identifier from that slot during the
reload.  (The original claim's "at most once for that identifier"
overall fails when the cache is full and both slots use the identifier
— see the counterexample — so the bound is per slot.) -/
theorem c2_shared_slot_pointer_identity (lc : Globals → Globals)
    (oracle : List Char → Option (Nat × Nat)) (g : Globals)
    (ts : TexState) (s : Slot) (i j : Nat) (f : List Char)
    (hij : i < j) (hj : j < (postConfigState lc g).eyes.length)
    (hfi : (slotGet s ((postConfigState lc g).eyes.getD i
      dEye)).filename = some f)
    (hfj : (slotGet s ((postConfigState lc g).eyes.getD j
      dEye)).filename = some f) :
    (slotGet s ((reloadEyeConfig lc oracle g ts).1.eyes.getD i
      dEye)).data =
      (slotGet s ((reloadEyeConfig lc oracle g ts).1.eyes.getD j
        dEye)).data ∧
    (reloadEyeConfig lc oracle g ts).2.log.count (s, f) ≤
      ts.log.count (s, f) + 1 := by
  obtain ⟨H1, H2, H3, H4, H5⟩ := resolveTextures_spec oracle
    (postConfigState lc g).eyes [] 0 ts sameSlotSameData_nil
  simp only [List.length_nil, Nat.zero_add] at H2 H4
  have hi : i < (postConfigState lc g).eyes.length := lt_trans hij hj
  have hbi : i <
      (resolveTextures oracle (postConfigState lc g).eyes 0 [] ts).1.length := by
    rw [H2]; exact hi
  have hbj : j <
      (resolveTextures oracle (postConfigState lc g).eyes 0 [] ts).1.length := by
    rw [H2]; exact hj
  have hfi2 : (slotGet s ((resolveTextures oracle
      (postConfigState lc g).eyes 0 [] ts).1.getD i dEye)).filename =
      some f := by
    rw [eyeFilenames_slot _ _ (H4 i hi) s]; exact hfi
  have hfj2 : (slotGet s ((resolveTextures oracle
      (postConfigState lc g).eyes 0 [] ts).1.getD j dEye)).filename =
      some f := by
    rw [eyeFilenames_slot _ _ (H4 j hj) s]; exact hfj
  constructor
  · show (slotGet s ((stepResume (stepFreeTempNames
        { postConfigState lc g with
          eyes := (resolveTextures oracle (postConfigState lc g).eyes
            0 [] ts).1 })).eyes.getD i dEye)).data =
      (slotGet s ((stepResume (stepFreeTempNames
        { postConfigState lc g with
          eyes := (resolveTextures oracle (postConfigState lc g).eyes
            0 [] ts).1 })).eyes.getD j dEye)).data
    rw [finalEyes_slot_data _ i hbi s, finalEyes_slot_data _ j hbj s]
    exact H1 s f _ _ (getD_mem _ i dEye hbi) (getD_mem _ j dEye hbj)
      hfi2 hfj2
  · exact (H5 s f).2

/-- C2 counterexample: with the cache already full (8 entries) and both
eyes requesting texture `x` for both iris and sclera, the pair of units
(0, 1) satisfies the claim's hypothesis in the iris slot and does end
up with pointer-identical data, but the external decoder is invoked
twice for identifier `x` during the reload — once from the iris slot
and once from the sclera slot of eye 0, because the failed cache insert
(capacity) leaves the sclera lookup with no cached entry to hit. -/
theorem c2_counterexample_decoder_twice_on_full_cache :
    (postConfigState lcBothX gEmpty).eyes.length = 2 ∧
    (slotGet .iris ((postConfigState lcBothX gEmpty).eyes.getD 0
      dEye)).filename = some "x".data ∧
    (slotGet .iris ((postConfigState lcBothX gEmpty).eyes.getD 1
      dEye)).filename = some "x".data ∧
    (slotGet .iris ((reloadEyeConfig lcBothX oracleX gEmpty
      tsFull).1.eyes.getD 0 dEye)).data =
      (slotGet .iris ((reloadEyeConfig lcBothX oracleX gEmpty
        tsFull).1.eyes.getD 1 dEye)).data ∧
    (((reloadEyeConfig lcBothX oracleX gEmpty tsFull).2.log.map
      Prod.snd).count "x".data) = 2 := by
  refine ⟨by decide, by decide, by decide, by decide, by decide⟩

/-- C2 witness: the amended theorem at the concrete two-eye
configuration sharing iris texture `x`. -/
theorem c2_witness :
    (slotGet .iris ((reloadEyeConfig lcBothX oracleX gEmpty
      tsFull).1.eyes.getD 0 dEye)).data =
      (slotGet .iris ((reloadEyeConfig lcBothX oracleX gEmpty
        tsFull).1.eyes.getD 1 dEye)).data ∧
    (reloadEyeConfig lcBothX oracleX gEmpty tsFull).2.log.count
      (.iris, "x".data) ≤
      tsFull.log.count (.iris, "x".data) + 1 :=
  c2_shared_slot_pointer_identity lcBothX oracleX gEmpty tsFull .iris
    0 1 "x".data (by decide) (by decide) (by decide) (by decide)
